import Mathlib

/-!
Verification of the daily aggregation job of GrowVision/AI_analysis
(`scripts/daily_job.py`), shallowly embedded in Lean 4.

Modelling conventions:
* a UTC instant (`timestamptz`) is an `Int`, seconds since the Unix epoch;
* a calendar date (`date`) is an `Int`, days since 1970-01-01;
* a timezone (`ZoneInfo`) is a pair of offset functions: `offsetOfLocal`
  gives the UTC offset (seconds) in effect at a given *local wall-clock*
  time (used when Python localises a naive datetime and converts it to
  UTC), `offsetOfUtc` gives the offset in effect at a given *UTC instant*
  (used by `astimezone` and by SQL `ts at time zone tz`);
* the rollup table `feat_menu_daily` is a function from its primary key
  `(day, store_id, menu_id)` to an optional row of the four aggregate
  columns; `avg_price numeric(10,2)` is held scaled by 100 (cents);
* the SQL statement `UPSERT_RANGE` is embedded as a pure store
  transformer `aggregate_range`; the job driver functions return the
  list of local days for which `aggregate_range` is invoked, in order,
  or an error when the CLI validation in `main`/`run_range` aborts the
  run before any storage access;
* two distinct day functions: the Python conversion
  `dt.astimezone(tz).date()` used by `run_all` is `localDayOf` (the
  local calendar day of the instant), while the SQL `GROUP BY` day
  expression `(ts at time zone 'UTC' at time zone tz)::date` is
  `sqlDayOf` — on a `timestamptz` the first `at time zone 'UTC'` yields
  the naive UTC wall-clock, the second `at time zone tz` re-interprets
  that wall-clock as tz-local (the instant `ts - offset`), and `::date`
  truncates in the connection's *session* timezone, an extra parameter
  of the embedding (the job never issues `SET TIME ZONE`).  The two
  agree for `tz = UTC` with a UTC session, and disagree otherwise.
-/

/-- A row of the raw input table `raw_sales`:
`(store_id int, ts timestamptz, menu_id text, qty int, price int, ...)`. -/
structure RawEvent where
  store_id : Int
  ts : Int
  menu_id : String
  qty : Int
  price : Int
deriving DecidableEq, Repr

/-- A timezone, as the pair of offset rules described in the module
docstring.  A fixed-offset zone has both functions constant; a zone with
daylight-saving transitions has non-constant offsets. -/
structure Tz where
  offsetOfLocal : Int → Int
  offsetOfUtc : Int → Int

/-- The default timezone `UTC` (`AGG_TZ = "UTC"`). -/
def utcTz : Tz := ⟨fun _ => 0, fun _ => 0⟩

/-- `Asia/Tokyo`: fixed offset UTC+9, no daylight saving. -/
def tokyoTz : Tz := ⟨fun _ => 32400, fun _ => 32400⟩

/-- Python `dt.astimezone(tz).date()` for an aware UTC datetime, as
used by `run_all` on the min/max raw timestamps: the local calendar day
of the instant `ts` in `tz` (add the offset in effect at the instant,
truncate to the day; floor division handles instants before the
epoch).  This is the *intended* local day of an instant; the SQL
day-key expression of `UPSERT_RANGE` is the different function
`sqlDayOf`. -/
def localDayOf (tz : Tz) (ts : Int) : Int :=
  (ts + tz.offsetOfUtc ts).ediv 86400

/-- The `GROUP BY` day expression of `UPSERT_RANGE`,
`(ts at time zone 'UTC' at time zone %(tz)s)::date`, applied to the
`timestamptz` column `ts`: `ts at time zone 'UTC'` yields the naive UTC
wall-clock of the instant; re-interpreting that wall-clock as tz-local
with `at time zone %(tz)s` gives back a `timestamptz`, the instant
`ts - tz.offsetOfLocal ts`; the final `::date` on a `timestamptz`
truncates in the session timezone of the connection (which the job
never sets).  For `tz = UTC` with a UTC session this is the UTC
calendar day of `ts`; for other zones the offset enters with the wrong
sign compared with `localDayOf`. -/
def sqlDayOf (tz sessionTz : Tz) (ts : Int) : Int :=
  (ts - tz.offsetOfLocal ts
    + sessionTz.offsetOfUtc (ts - tz.offsetOfLocal ts)).ediv 86400

/-- `to_utc_range_for_local_day(day_local, tz)`: local midnight of
`day_local` (`datetime.combine(day_local, min.time()).replace(tzinfo=tz)`),
plus `timedelta(days=1)` of wall-clock time for the end, both converted
to UTC by `astimezone` (subtract the offset the zone assigns to that
local wall-clock time). -/
def to_utc_range_for_local_day (day_local : Int) (tz : Tz) : Int × Int :=
  let start_naive := day_local * 86400
  let end_naive := start_naive + 86400
  (start_naive - tz.offsetOfLocal start_naive,
   end_naive - tz.offsetOfLocal end_naive)

/-- Primary key of the rollup table `feat_menu_daily`. -/
structure Key where
  day : Int
  store_id : Int
  menu_id : String
deriving DecidableEq, Repr

/-- The four aggregate columns of one `feat_menu_daily` row
(`avg_price` scaled by 100). -/
structure SummaryRow where
  qty_sum : Int
  sales_sum : Int
  orders : Int
  avg_price : Int
deriving DecidableEq, Repr

/-- The rollup store: rows of `feat_menu_daily` indexed by primary key. -/
abbrev RollupStore : Type := Key → Option SummaryRow

/-- The empty rollup table. -/
def emptyRollup : RollupStore := fun _ => none

/-- The `WHERE` store predicate of `UPSERT_RANGE`:
`(%(store_id)s is null or store_id = %(store_id)s)`. -/
def matchesStore (store_id : Option Int) (ev : RawEvent) : Bool :=
  match store_id with
  | none => true
  | some s => ev.store_id == s

/-- The `WHERE` timestamp predicate of `UPSERT_RANGE`:
`ts >= %(start_utc)s and ts < %(end_utc)s`. -/
def inRange (start_utc end_utc : Int) (ev : RawEvent) : Bool :=
  decide (start_utc ≤ ev.ts) && decide (ev.ts < end_utc)

/-- The rows selected by `UPSERT_RANGE` from `raw_sales`. -/
def selectEvents (events : List RawEvent) (start_utc end_utc : Int)
    (store_id : Option Int) : List RawEvent :=
  events.filter (fun ev => inRange start_utc end_utc ev && matchesStore store_id ev)

/-- The selected rows falling into the group `GROUP BY 1,2,3`, i.e. by
`(day_local, store_id, menu_id)`, for a given rollup key. -/
def groupRows (events : List RawEvent) (start_utc end_utc : Int)
    (store_id : Option Int) (tz sessionTz : Tz) (k : Key) : List RawEvent :=
  (selectEvents events start_utc end_utc store_id).filter
    (fun ev => (sqlDayOf tz sessionTz ev.ts == k.day) && (ev.store_id == k.store_id)
      && (ev.menu_id == k.menu_id))

/-- Rounding of PostgreSQL `numeric(10,2)` casts: `num / den` (with
`den > 0` at every use site) rounded to the nearest integer, ties away
from zero. -/
def roundHalfAwayFromZero (num den : Int) : Int :=
  if 0 ≤ num then (2 * num + den).ediv (2 * den)
  else -((2 * (-num) + den).ediv (2 * den))

/-- The aggregate list of `UPSERT_RANGE` applied to one (nonempty) group:
`sum(qty)`, `sum(qty*price)`, `count(*)`, `avg(price)::numeric(10,2)`. -/
def summarize (rows : List RawEvent) : SummaryRow :=
  { qty_sum := (rows.map (fun ev => ev.qty)).sum
    sales_sum := (rows.map (fun ev => ev.qty * ev.price)).sum
    orders := (rows.length : Int)
    avg_price := roundHalfAwayFromZero (100 * (rows.map (fun ev => ev.price)).sum)
      (rows.length : Int) }

/-- `aggregate_range` / the `UPSERT_RANGE` statement as a store
transformer: every nonempty group of selected rows is inserted at its
key, overwriting all four aggregate columns on conflict
(`on conflict (day, store_id, menu_id) do update set ...`); keys for
which the selection produces no group keep their previous row. -/
def aggregate_range (events : List RawEvent) (start_utc end_utc : Int)
    (store_id : Option Int) (tz sessionTz : Tz) (M : RollupStore) : RollupStore :=
  fun k =>
    let rows := groupRows events start_utc end_utc store_id tz sessionTz k
    if rows.isEmpty then M k else some (summarize rows)

/-- The raw events that the spec invariant associates with a rollup key:
exactly the raw events whose UTC timestamp falls in
`[start_utc, end_utc)`, filtered to the store filter and to the matching
store and menu item.  (Spec-side definition, for comparison with
`aggregate_range`.) -/
def specEventsFor (events : List RawEvent) (start_utc end_utc : Int)
    (store_id : Option Int) (st : Int) (mn : String) : List RawEvent :=
  events.filter (fun ev => inRange start_utc end_utc ev
    && matchesStore store_id ev && (ev.store_id == st) && (ev.menu_id == mn))

/-- Gregorian leap-year rule (as used by Python `datetime.date`). -/
def isLeapYear (y : Int) : Bool :=
  (y.emod 4 == 0 && y.emod 100 != 0) || y.emod 400 == 0

/-- Length of month `m` of year `y` (Python `calendar` rules). -/
def daysInMonth (y m : Int) : Int :=
  if m == 2 then (if isLeapYear y then 29 else 28)
  else if m == 4 || m == 6 || m == 9 || m == 11 then 30
  else 31

/-- Civil date to days since 1970-01-01 (proleptic Gregorian calendar,
Howard Hinnant's `days_from_civil` algorithm, as computed by Python
`date.toordinal` up to the epoch shift). -/
def ymdToDays (y m d : Int) : Int :=
  let yy := if m ≤ 2 then y - 1 else y
  let era := yy.ediv 400
  let yoe := yy - era * 400
  let mm := if 2 < m then m - 3 else m + 9
  let doy := (153 * mm + 2).ediv 5 + d - 1
  let doe := yoe * 365 + yoe.ediv 4 - yoe.ediv 100 + doy
  era * 146097 + doe - 719468

/-- Split a character list at every dash (the behaviour of
`"…".split("-")` on the date strings handled by `strptime`). -/
def splitDash (cs : List Char) : List (List Char) :=
  match cs with
  | [] => [[]]
  | c :: rest =>
    if c = '-' then [] :: splitDash rest
    else
      match splitDash rest with
      | [] => [[c]]
      | g :: gs => (c :: g) :: gs

/-- A nonempty all-decimal-digit character list to its value. -/
def digitsVal (cs : List Char) : Option Nat :=
  if cs ≠ [] ∧ cs.all (fun c => c.isDigit) then
    some (cs.foldl (fun a c => a * 10 + (c.toNat - 48)) 0)
  else none

/-- `datetime.strptime(s, "%Y-%m-%d").date()`: exactly three dash-joined
digit fields; `%Y` is exactly four digits, `%m` and `%d` one or two
digits; month in 1..12 and day valid for the month, year at least 1
(otherwise `ValueError`, i.e. `none`). -/
def parseDate (s : String) : Option Int :=
  match splitDash s.data with
  | [ys, ms, ds] =>
    match digitsVal ys, digitsVal ms, digitsVal ds with
    | some y, some m, some d =>
      if ys.length = 4 ∧ 1 ≤ y ∧
          (ms.length = 1 ∨ ms.length = 2) ∧ 1 ≤ m ∧ m ≤ 12 ∧
          (ds.length = 1 ∨ ds.length = 2) ∧ 1 ≤ d ∧ (d : Int) ≤ daysInMonth (y : Int) (m : Int)
      then some (ymdToDays (y : Int) (m : Int) (d : Int))
      else none
    | _, _, _ => none
  | _ => none

/-- The ascending list of days `first, first+1, ..., stop-1` (the shape
of the per-day `while` loops of `run_range` and `run_all`). -/
def daysFromTo (first stop : Int) : List Int :=
  (List.range (stop - first).toNat).map (fun i : Nat => first + (i : Int))

/-- `run_range(date_from, date_to, ...)`: parse `--from` (and `--to`
when given, else default to `--from` plus one day), abort with the
`SystemExit` message on a parse failure before any storage access,
otherwise the days `df, ..., dt-1` are aggregated one by one. -/
def run_range (date_from : String) (date_to : Option String) :
    Except String (List Int) :=
  match parseDate date_from with
  | none => Except.error "ERROR: --from must be YYYY-MM-DD"
  | some df =>
    match date_to with
    | none => Except.ok (daysFromTo df (df + 1))
    | some s =>
      match parseDate s with
      | none => Except.error "ERROR: --to must be YYYY-MM-DD"
      | some dt => Except.ok (daysFromTo df dt)

/-- `run_yesterday`: aggregate exactly the local day before the current
local date. -/
def run_yesterday (todayLocal : Int) : List Int :=
  [todayLocal - 1]

/-- `run_all`: query `min(ts), max(ts)` of `raw_sales` under the store
filter; with no data, do nothing; otherwise convert both to local dates,
clamp the first day to `(now(tz) - timedelta(days=365*MAX_YEARS_BACK)).date()`
= the current local date minus `365 * MAX_YEARS_BACK` days, and
aggregate every day up to and including the last local day. -/
def run_all (events : List RawEvent) (todayLocal : Int) (maxYearsBack : Int)
    (store_id : Option Int) (tz : Tz) : List Int :=
  let min_day := todayLocal - 365 * maxYearsBack
  let filtered := events.filter (matchesStore store_id)
  match (filtered.map (fun ev => ev.ts)).min?, (filtered.map (fun ev => ev.ts)).max? with
  | some min_ts, some max_ts =>
    let first_local_day := localDayOf tz min_ts
    let last_local_day := localDayOf tz max_ts
    let first := if first_local_day < min_day then min_day else first_local_day
    daysFromTo first (last_local_day + 1)
  | _, _ => []

/-- `main`: dispatch on `--mode`; in mode `range` a missing `--from` is
rejected (`SystemExit`) before `run_range` is entered and hence before
any storage access. -/
def mainJob (mode : String) (date_from date_to : Option String)
    (events : List RawEvent) (todayLocal : Int) (maxYearsBack : Int)
    (store_id : Option Int) (tz : Tz) : Except String (List Int) :=
  if mode = "yesterday" then Except.ok (run_yesterday todayLocal)
  else if mode = "range" then
    match date_from with
    | none => Except.error "ERROR: mode=range requires --from YYYY-MM-DD"
    | some s => run_range s date_to
  else if mode = "all" then Except.ok (run_all events todayLocal maxYearsBack store_id tz)
  else Except.error "invalid mode"

/-- Interpretation of a driver run against the rollup store: each day in
the list is resolved to its UTC range and aggregated in order. -/
def applyDays (events : List RawEvent) (store_id : Option Int) (tz sessionTz : Tz)
    (days : List Int) (M : RollupStore) : RollupStore :=
  days.foldl
    (fun acc d =>
      let r := to_utc_range_for_local_day d tz
      aggregate_range events r.1 r.2 store_id tz sessionTz acc)
    M

/-- Days enumerated by the driver loops: membership bounds. -/
lemma mem_daysFromTo {d a b : Int} (h : d ∈ daysFromTo a b) : a ≤ d ∧ d < b := by
  obtain ⟨i, hi, rfl⟩ := List.mem_map.mp h
  have h2 := List.mem_range.mp hi
  omega

/-- A one-day driver loop visits exactly its start day. -/
lemma daysFromTo_one (a : Int) : daysFromTo a (a + 1) = [a] := by
  have h1 : (a + 1 - a).toNat = 1 := by omega
  rw [daysFromTo, h1]
  show [a + ((0 : Nat) : Int)] = [a]
  simp

/-- The group a key collects from the selection is exactly the spec-side
event set, whenever the SQL day-key expression maps every instant of
the range to the key's day. -/
lemma groupRows_eq_specEventsFor (events : List RawEvent) (s e : Int)
    (filt : Option Int) (tz sessionTz : Tz) (day st : Int) (mn : String)
    (hcoh : ∀ t : Int, s ≤ t → t < e → sqlDayOf tz sessionTz t = day) :
    groupRows events s e filt tz sessionTz ⟨day, st, mn⟩
      = specEventsFor events s e filt st mn := by
  unfold groupRows selectEvents specEventsFor
  rw [List.filter_filter]
  apply List.filter_congr
  intro ev _
  cases hin : inRange s e ev with
  | false => simp [hin]
  | true =>
    have hbounds : s ≤ ev.ts ∧ ev.ts < e := by
      simpa [inRange] using hin
    have hday : sqlDayOf tz sessionTz ev.ts = day := hcoh ev.ts hbounds.1 hbounds.2
    simp only [hin, hday, beq_self_eq_true, Bool.true_and, Bool.and_true]
    cases matchesStore filt ev <;> cases ev.store_id == st <;> cases ev.menu_id == mn <;> rfl

/-- A rollup table holding a stale row for `(day 0, store 1, "ramen")`. -/
def staleStore : RollupStore :=
  fun k => if k = ⟨0, 1, "ramen"⟩ then some ⟨5, 6000, 5, 120000⟩ else none

/-- The local calendar day 2025-08-20. -/
def dTokyo : Int := ymdToDays 2025 8 20

/-- A raw event whose Asia/Tokyo local time is 2025-08-20 00:30 (its UTC
instant, `dTokyo * 86400 + 1800 - 32400`, falls on 2025-08-19 UTC). -/
def tokyoEv : RawEvent := ⟨1, dTokyo * 86400 + 1800 - 32400, "ramen", 2, 1200⟩

/-- C1 counterexample, two independent failures of the unconditional
invariant.  First, with no raw event at all in the UTC range of local
day 0 (UTC timezone, UTC session), re-aggregating that day leaves the
stale rollup row `(qty_sum = 5, ...)` in place, while the aggregate
functions applied to exactly the matching raw events (the empty set)
give `qty_sum = 0`.  Second, with `AGG_TZ = Asia/Tokyo` (UTC session
zone), aggregating local day 2025-08-20 over its UTC range leaves the
key `(2025-08-20, 1, ramen)` without any row even though the Tokyo
00:30 event of that day matches it: the SQL day-key expression files
the event under a different day, so the row does not equal the
aggregates of the matching events. -/
theorem C1_counterexample :
    (aggregate_range [] (to_utc_range_for_local_day 0 utcTz).1
        (to_utc_range_for_local_day 0 utcTz).2 none utcTz utcTz staleStore ⟨0, 1, "ramen"⟩
      = some ⟨5, 6000, 5, 120000⟩
    ∧ specEventsFor [] (to_utc_range_for_local_day 0 utcTz).1
        (to_utc_range_for_local_day 0 utcTz).2 none 1 "ramen" = []
    ∧ (([] : List RawEvent).map (fun ev => ev.qty)).sum = 0
    ∧ (5 : Int) ≠ 0)
    ∧ (aggregate_range [tokyoEv] (to_utc_range_for_local_day dTokyo tokyoTz).1
        (to_utc_range_for_local_day dTokyo tokyoTz).2 none tokyoTz utcTz emptyRollup
        ⟨dTokyo, 1, "ramen"⟩ = none
    ∧ specEventsFor [tokyoEv] (to_utc_range_for_local_day dTokyo tokyoTz).1
        (to_utc_range_for_local_day dTokyo tokyoTz).2 none 1 "ramen" = [tokyoEv]
    ∧ (summarize [tokyoEv]).qty_sum = 2) := by
  decide

/-- C1 (amended): for a key with at least one matching raw event, and
whenever the SQL day-key expression maps every instant of the day's UTC
range to that key's day (true for the default `AGG_TZ = UTC` under a
UTC session zone, false e.g. for Asia/Tokyo), after `aggregate_range`
over the UTC range of the key's local day the rollup row equals the
aggregates of exactly the raw events whose UTC timestamp lies in
`[start_utc, end_utc)` and that match the store filter and the key's
store and menu item — independent of the previous rollup contents `M`,
so re-aggregation after an edit carries no residual contribution. -/
theorem C1_amended (events : List RawEvent) (filt : Option Int) (tz sessionTz : Tz)
    (M : RollupStore) (day st : Int) (mn : String)
    (hcoh : ∀ t : Int, (to_utc_range_for_local_day day tz).1 ≤ t →
      t < (to_utc_range_for_local_day day tz).2 → sqlDayOf tz sessionTz t = day)
    (hne : specEventsFor events (to_utc_range_for_local_day day tz).1
      (to_utc_range_for_local_day day tz).2 filt st mn ≠ []) :
    aggregate_range events (to_utc_range_for_local_day day tz).1
        (to_utc_range_for_local_day day tz).2 filt tz sessionTz M ⟨day, st, mn⟩
      = some (summarize (specEventsFor events (to_utc_range_for_local_day day tz).1
          (to_utc_range_for_local_day day tz).2 filt st mn)) := by
  have hgr := groupRows_eq_specEventsFor events (to_utc_range_for_local_day day tz).1
    (to_utc_range_for_local_day day tz).2 filt tz sessionTz day st mn hcoh
  have hfalse : (specEventsFor events (to_utc_range_for_local_day day tz).1
      (to_utc_range_for_local_day day tz).2 filt st mn).isEmpty = false :=
    List.isEmpty_eq_false.mpr hne
  simp [aggregate_range, hgr, hfalse]

/-- A concrete raw event inside local day 0 of the UTC timezone. -/
def ev1 : RawEvent := ⟨1, 1000, "ramen", 2, 1200⟩

/-- C1 witness: the amended invariant instantiated at a concrete event
on local day 0, with `AGG_TZ = UTC` and a UTC session zone. -/
theorem C1_amended_witness :
    aggregate_range [ev1] (to_utc_range_for_local_day 0 utcTz).1
        (to_utc_range_for_local_day 0 utcTz).2 none utcTz utcTz emptyRollup ⟨0, 1, "ramen"⟩
      = some (summarize (specEventsFor [ev1] (to_utc_range_for_local_day 0 utcTz).1
          (to_utc_range_for_local_day 0 utcTz).2 none 1 "ramen")) :=
  C1_amended [ev1] none utcTz utcTz emptyRollup 0 1 "ramen"
    (by
      intro t h1 h2
      have h1a : (0 : Int) ≤ t := by
        simpa [to_utc_range_for_local_day, utcTz] using h1
      have h2a : t < 86400 := by
        simpa [to_utc_range_for_local_day, utcTz] using h2
      have hoff : t - utcTz.offsetOfLocal t
          + utcTz.offsetOfUtc (t - utcTz.offsetOfLocal t) = t := by
        simp [utcTz]
      rw [sqlDayOf, hoff]
      exact Int.ediv_eq_zero_of_lt h1a h2a)
    (by decide)

/-- C2: running `aggregate_range` twice with the same raw events, range,
store filter and timezone leaves the rollup store exactly as running it
once: the `on conflict` branch overwrites all four aggregate columns
with the freshly computed values, so the second run rewrites what the
first wrote. -/
theorem C2_idempotent (events : List RawEvent) (s e : Int) (filt : Option Int)
    (tz sessionTz : Tz) (M : RollupStore) :
    aggregate_range events s e filt tz sessionTz
        (aggregate_range events s e filt tz sessionTz M)
      = aggregate_range events s e filt tz sessionTz M := by
  funext k
  by_cases h : (groupRows events s e filt tz sessionTz k).isEmpty <;>
    simp [aggregate_range, h]

/-- C2 witness: idempotence at a concrete store and event list. -/
theorem C2_idempotent_witness :
    aggregate_range [ev1] 0 86400 none utcTz utcTz
        (aggregate_range [ev1] 0 86400 none utcTz utcTz staleStore)
      = aggregate_range [ev1] 0 86400 none utcTz utcTz staleStore :=
  C2_idempotent [ev1] 0 86400 none utcTz utcTz staleStore

/-- C3 (a code bug in `UPSERT_RANGE`): the claim — and the design of
the driver, which computes the UTC range of one `AGG_TZ`-local day and
expects its rows to land on that day — requires the day key to be the
local calendar date of the event's UTC timestamp in `tz`.  On the
`timestamptz` column the SQL expression
`(ts at time zone 'UTC' at time zone tz)::date` instead yields the
session-zone date of `ts - offset(tz)`.  Evaluated at the failing
input: aggregating local day 2025-08-20 in Asia/Tokyo (UTC session
zone) files the 00:30-local event of that day under day key 2025-08-19
and leaves day 2025-08-20's row empty, whereas the event's Tokyo local
calendar day (the intended key, `localDayOf`) is 2025-08-20. -/
theorem C3_day_key_bug :
    aggregate_range [tokyoEv] (to_utc_range_for_local_day dTokyo tokyoTz).1
        (to_utc_range_for_local_day dTokyo tokyoTz).2 none tokyoTz utcTz emptyRollup
        ⟨dTokyo, 1, "ramen"⟩ = none
    ∧ aggregate_range [tokyoEv] (to_utc_range_for_local_day dTokyo tokyoTz).1
        (to_utc_range_for_local_day dTokyo tokyoTz).2 none tokyoTz utcTz emptyRollup
        ⟨dTokyo - 1, 1, "ramen"⟩ = some ⟨2, 2400, 1, 120000⟩
    ∧ sqlDayOf tokyoTz utcTz tokyoEv.ts = dTokyo - 1
    ∧ localDayOf tokyoTz tokyoEv.ts = dTokyo := by
  decide

/-- A timezone with a daylight-saving spring-forward (offset jumps from
0 to 3600 seconds at 02:00 local wall-clock time of day 100). -/
def dstTz : Tz :=
  ⟨fun naive => if naive < 100 * 86400 + 7200 then 0 else 3600,
   fun t => if t < 100 * 86400 + 7200 then 0 else 3600⟩

/-- C4: `to_utc_range_for_local_day day tz` returns the half-open pair
whose start is the UTC instant of local midnight of `day` (local naive
midnight minus the offset the zone assigns to it) and whose end is the
UTC instant of local midnight of `day + 1`, reached by adding exactly
86400 seconds of local wall-clock time; for a fixed-offset timezone the
UTC duration is exactly 86400 seconds, while across the daylight-saving
transition of `dstTz` it is not.  The embedding is a pure function, so
the call has no side effects. -/
theorem C4_resolver :
    (∀ (day : Int) (tz : Tz),
      to_utc_range_for_local_day day tz
        = (day * 86400 - tz.offsetOfLocal (day * 86400),
           (day + 1) * 86400 - tz.offsetOfLocal ((day + 1) * 86400)))
    ∧ (∀ (day off : Int),
      (to_utc_range_for_local_day day ⟨fun _ => off, fun _ => off⟩).2
        - (to_utc_range_for_local_day day ⟨fun _ => off, fun _ => off⟩).1 = 86400)
    ∧ (to_utc_range_for_local_day 100 dstTz).2
        - (to_utc_range_for_local_day 100 dstTz).1 ≠ 86400 := by
  refine ⟨?_, ?_, by decide⟩
  · intro day tz
    have h1 : day * 86400 + 86400 = (day + 1) * 86400 := by ring
    simp only [to_utc_range_for_local_day, h1]
  · intro day off
    simp only [to_utc_range_for_local_day]
    ring

/-- A raw event whose timestamp is exactly the end of the Asia/Tokyo
local day 2025-08-20's UTC range, i.e. Tokyo local midnight of
2025-08-21 (2025-08-20T15:00:00Z). -/
def tokyoBoundaryEv : RawEvent := ⟨1, (dTokyo + 1) * 86400 - 32400, "ramen", 1, 500⟩

/-- C5 (selection exact, summary placement a code bug): the `WHERE`
clause of `UPSERT_RANGE` selects exactly the raw events with
`start_utc ≤ ts` and `ts < end_utc` whose store matches the filter (a
null filter selects all stores); an event with `ts` equal to `end_utc`
is not selected, and since the end of a day's range is literally the
start of the next day's range, such an event is selected when the next
day's range is aggregated.  The claim's conclusion that it then
*belongs to the next day's summary* fails in the code for non-UTC
timezones: evaluated at the failing input (Asia/Tokyo, UTC session
zone), the event at `ts = end_utc(2025-08-20)` is selected while
aggregating day 2025-08-21's range, but the SQL day key files it under
day 2025-08-20, leaving day 2025-08-21's row empty and overwriting day
2025-08-20's row. -/
theorem C5_boundary_bug :
    (∀ (events : List RawEvent) (s e : Int) (filt : Option Int) (ev : RawEvent),
      ev ∈ selectEvents events s e filt
        ↔ ev ∈ events ∧ s ≤ ev.ts ∧ ev.ts < e
            ∧ ∀ st : Int, filt = some st → ev.store_id = st)
    ∧ (∀ (events : List RawEvent) (s e : Int) (filt : Option Int) (ev : RawEvent),
      ev.ts = e → ev ∉ selectEvents events s e filt)
    ∧ (∀ (day : Int) (tz : Tz),
      (to_utc_range_for_local_day day tz).2 = (to_utc_range_for_local_day (day + 1) tz).1)
    ∧ (∀ (events : List RawEvent) (day : Int) (tz : Tz) (filt : Option Int) (ev : RawEvent),
      ev ∈ events → ev.ts = (to_utc_range_for_local_day day tz).2
        → ev.ts < (to_utc_range_for_local_day (day + 1) tz).2
        → matchesStore filt ev = true
        → ev ∈ selectEvents events (to_utc_range_for_local_day (day + 1) tz).1
            (to_utc_range_for_local_day (day + 1) tz).2 filt)
    ∧ (aggregate_range [tokyoBoundaryEv] (to_utc_range_for_local_day (dTokyo + 1) tokyoTz).1
        (to_utc_range_for_local_day (dTokyo + 1) tokyoTz).2 none tokyoTz utcTz emptyRollup
        ⟨dTokyo + 1, 1, "ramen"⟩ = none
      ∧ aggregate_range [tokyoBoundaryEv] (to_utc_range_for_local_day (dTokyo + 1) tokyoTz).1
          (to_utc_range_for_local_day (dTokyo + 1) tokyoTz).2 none tokyoTz utcTz emptyRollup
          ⟨dTokyo, 1, "ramen"⟩ = some ⟨1, 500, 1, 50000⟩
      ∧ sqlDayOf tokyoTz utcTz tokyoBoundaryEv.ts = dTokyo
      ∧ localDayOf tokyoTz tokyoBoundaryEv.ts = dTokyo + 1) := by
  have hnext : ∀ (day : Int) (tz : Tz),
      (to_utc_range_for_local_day day tz).2 = (to_utc_range_for_local_day (day + 1) tz).1 := by
    intro day tz
    have h1 : day * 86400 + 86400 = (day + 1) * 86400 := by ring
    simp only [to_utc_range_for_local_day, h1]
  refine ⟨?_, ?_, hnext, ?_, by decide⟩
  · intro events s e filt ev
    cases filt with
    | none =>
      simp [selectEvents, List.mem_filter, inRange, matchesStore, and_assoc]
    | some st =>
      simp [selectEvents, List.mem_filter, inRange, matchesStore, and_assoc]
  · intro events s e filt ev hts hmem
    have hp := (List.mem_filter.mp hmem).2
    simp only [inRange, hts, Bool.and_eq_true, decide_eq_true_eq] at hp
    exact absurd hp.1.2 (lt_irrefl e)
  · intro events day tz filt ev hmem hts hlt hstore
    have hge : (to_utc_range_for_local_day (day + 1) tz).1 ≤ ev.ts :=
      le_of_eq (hts.trans (hnext day tz)).symm
    refine List.mem_filter.mpr ⟨hmem, ?_⟩
    simp [inRange, hstore, hge, hlt]

/-- A raw event whose timestamp is exactly the end of local day 0 in
UTC. -/
def boundaryEv : RawEvent := ⟨1, 86400, "ramen", 1, 500⟩

/-- C5 witness: the boundary event is excluded from day 0's selection
and included in day 1's selection. -/
theorem C5_boundary_bug_witness :
    boundaryEv ∉ selectEvents [boundaryEv] (to_utc_range_for_local_day 0 utcTz).1
        (to_utc_range_for_local_day 0 utcTz).2 none
    ∧ boundaryEv ∈ selectEvents [boundaryEv] (to_utc_range_for_local_day (0 + 1) utcTz).1
        (to_utc_range_for_local_day (0 + 1) utcTz).2 none :=
  ⟨C5_boundary_bug.2.1 [boundaryEv] (to_utc_range_for_local_day 0 utcTz).1
      (to_utc_range_for_local_day 0 utcTz).2 none boundaryEv (by decide),
   C5_boundary_bug.2.2.2.1 [boundaryEv] 0 utcTz none boundaryEv (by decide) (by decide)
      (by decide) (by decide)⟩

/-- C6: for every group of selected rows, `summarize` computes
`qty_sum = Σ qty`, `sales_sum = Σ qty*price`, `orders = number of rows`
and `avg_price = mean of the per-row unit prices` rounded to two
decimal places with ties away from zero (the `numeric(10,2)` cast of
`avg(price)`); the tie `mean = 12.5 cents` rounds up to 13, and on a
concrete group the simple mean (150.00) differs from the
quantity-weighted mean `sales_sum / qty_sum` (175.00), so the formula is
not the weighted one. -/
theorem C6_aggregate_functions :
    (∀ rows : List RawEvent,
      (summarize rows).qty_sum = (rows.map (fun ev => ev.qty)).sum
      ∧ (summarize rows).sales_sum = (rows.map (fun ev => ev.qty * ev.price)).sum
      ∧ (summarize rows).orders = (rows.length : Int)
      ∧ (summarize rows).avg_price
          = roundHalfAwayFromZero (100 * (rows.map (fun ev => ev.price)).sum)
              (rows.length : Int))
    ∧ roundHalfAwayFromZero (100 * 1) 8 = 13
    ∧ ((summarize [⟨1, 0, "a", 1, 100⟩, ⟨1, 0, "a", 3, 200⟩]).avg_price = 15000
      ∧ roundHalfAwayFromZero
          (100 * (summarize [⟨1, 0, "a", 1, 100⟩, ⟨1, 0, "a", 3, 200⟩]).sales_sum)
          (summarize [⟨1, 0, "a", 1, 100⟩, ⟨1, 0, "a", 3, 200⟩]).qty_sum = 17500
      ∧ (15000 : Int) ≠ 17500) := by
  refine ⟨?_, by decide, by decide, by decide, by decide⟩
  intro rows
  exact ⟨rfl, rfl, rfl, rfl⟩

/-- C7: a run with store filter `st` leaves the rollup row of every key
whose store differs from `st` exactly as it was, whatever raw events
(of any store) lie inside the UTC range. -/
theorem C7_store_isolation (events : List RawEvent) (s e : Int) (st : Int)
    (tz sessionTz : Tz) (M : RollupStore) (k : Key) (h : k.store_id ≠ st) :
    aggregate_range events s e (some st) tz sessionTz M k = M k := by
  have hnil : groupRows events s e (some st) tz sessionTz k = [] := by
    unfold groupRows selectEvents
    rw [List.filter_filter]
    apply List.filter_eq_nil_iff.mpr
    intro ev _ hcontra
    simp only [Bool.and_eq_true, beq_iff_eq, matchesStore, inRange,
      decide_eq_true_eq] at hcontra
    exact h (hcontra.1.1.2.symm.trans hcontra.2.2)
  simp [aggregate_range, hnil]

/-- C7 witness: with filter `store_id = 5`, store 2's (absent) rollup
row stays absent even though store 2 has a raw event in the range. -/
theorem C7_store_isolation_witness :
    aggregate_range [⟨2, 10, "x", 1, 5⟩] 0 86400 (some 5) utcTz utcTz emptyRollup ⟨0, 2, "x"⟩
      = emptyRollup ⟨0, 2, "x"⟩ :=
  C7_store_isolation [⟨2, 10, "x", 1, 5⟩] 0 86400 5 utcTz utcTz emptyRollup ⟨0, 2, "x"⟩
    (by decide)

/-- C8: in mode `range`, a missing `--from` or a `--from`/`--to` that
fails to parse as a `YYYY-MM-DD` calendar date aborts the run with the
`SystemExit` validation failure, producing no aggregation day at all
(so no storage query or upsert); with `--to` omitted the run aggregates
exactly the one day `--from`. -/
theorem C8_range_validation :
    (∀ (date_to : Option String) (events : List RawEvent) (todayLocal myb : Int)
        (filt : Option Int) (tz : Tz),
      mainJob "range" none date_to events todayLocal myb filt tz
        = Except.error "ERROR: mode=range requires --from YYYY-MM-DD")
    ∧ (∀ (sFrom : String) (date_to : Option String), parseDate sFrom = none →
      run_range sFrom date_to = Except.error "ERROR: --from must be YYYY-MM-DD")
    ∧ (∀ (sFrom sTo : String) (df : Int), parseDate sFrom = some df →
      parseDate sTo = none →
      run_range sFrom (some sTo) = Except.error "ERROR: --to must be YYYY-MM-DD")
    ∧ (∀ (sFrom : String) (df : Int), parseDate sFrom = some df →
      run_range sFrom none = Except.ok [df]) := by
  refine ⟨?_, ?_, ?_, ?_⟩
  · intro date_to events todayLocal myb filt tz
    rfl
  · intro sFrom date_to h
    simp [run_range, h]
  · intro sFrom sTo df hf ht
    simp [run_range, hf, ht]
  · intro sFrom df hf
    simp [run_range, hf, daysFromTo_one]

/-- C8 witness: the four validation behaviours at concrete CLI inputs
(month 13, a non-date string, and a valid date). -/
theorem C8_range_validation_witness :
    mainJob "range" none none [] 0 5 none utcTz
      = Except.error "ERROR: mode=range requires --from YYYY-MM-DD"
    ∧ run_range "2025-13-01" none = Except.error "ERROR: --from must be YYYY-MM-DD"
    ∧ run_range "2025-01-05" (some "soon") = Except.error "ERROR: --to must be YYYY-MM-DD"
    ∧ run_range "2025-01-05" none = Except.ok [ymdToDays 2025 1 5] :=
  ⟨C8_range_validation.1 none [] 0 5 none utcTz,
   C8_range_validation.2.1 "2025-13-01" none (by decide),
   C8_range_validation.2.2.1 "2025-01-05" "soon" (ymdToDays 2025 1 5) (by decide) (by decide),
   C8_range_validation.2.2.2 "2025-01-05" (ymdToDays 2025 1 5) (by decide)⟩

/-- A raw event ten years in the past (UTC midnight of 2016-01-01). -/
def oldEv : RawEvent := ⟨1, ymdToDays 2016 1 1 * 86400, "a", 1, 10⟩

/-- A recent raw event (UTC midnight of 2026-10-01). -/
def recentEv : RawEvent := ⟨1, ymdToDays 2026 10 1 * 86400, "a", 1, 10⟩

set_option maxRecDepth 16384

/-- C9 counterexample: on 2026-10-12 with `MAX_YEARS_BACK = 5` and raw
data reaching back to 2016, the earliest day `run_all` aggregates is
2021-10-13 (the clamp is `today - 365*5 = 1825 days`), not the current
date minus five calendar years, 2021-10-12 (1826 days back, because
2024-02-29 intervenes): the clamp is not `current date minus
MAX_YEARS_BACK years`. -/
theorem C9_counterexample :
    (run_all [oldEv, recentEv] (ymdToDays 2026 10 12) 5 none utcTz).head?
        = some (ymdToDays 2021 10 13)
    ∧ ymdToDays 2021 10 13 ≠ ymdToDays 2021 10 12
    ∧ localDayOf utcTz oldEv.ts = ymdToDays 2016 1 1
    ∧ ymdToDays 2016 1 1 < ymdToDays 2021 10 12 := by
  decide

/-- C9 (amended): every local day that mode `all` aggregates is at
least the current local date minus `365 * MAX_YEARS_BACK` days (with
the default `MAX_YEARS_BACK = 5`, at most 1825 days back — never
earlier than the current date minus five calendar years, since five
consecutive calendar years span at least 1825 days), and at most the
local day of the newest raw event. -/
theorem C9_amended (events : List RawEvent) (todayLocal myb : Int)
    (filt : Option Int) (tz : Tz) (d : Int)
    (hd : d ∈ run_all events todayLocal myb filt tz) :
    todayLocal - 365 * myb ≤ d := by
  simp only [run_all] at hd
  rcases hmin : ((events.filter (matchesStore filt)).map (fun ev => ev.ts)).min?
    with _ | min_ts
  · simp only [hmin] at hd
    cases hd
  · rcases hmax : ((events.filter (matchesStore filt)).map (fun ev => ev.ts)).max?
      with _ | max_ts
    · simp only [hmin, hmax] at hd
      cases hd
    · simp only [hmin, hmax] at hd
      have hlow := (mem_daysFromTo hd).1
      by_cases hcl : localDayOf tz min_ts < todayLocal - 365 * myb
      · rw [if_pos hcl] at hlow
        omega
      · rw [if_neg hcl] at hlow
        omega

/-- C9 witness: the clamp bound applied to the earliest day of the
concrete 2016–2026 run. -/
theorem C9_amended_witness :
    ymdToDays 2026 10 12 - 365 * 5 ≤ ymdToDays 2021 10 13 :=
  C9_amended [oldEv, recentEv] (ymdToDays 2026 10 12) 5 none utcTz
    (ymdToDays 2021 10 13) (by decide)

/-- C10: in mode `range` with an explicit `--to` no later than `--from`,
the run parses both dates, raises no error and aggregates zero days: no
`aggregate_range` call is made, and interpreting the empty day list
against any rollup store leaves it unchanged. -/
theorem C10_empty_interval (sFrom sTo : String) (df dt : Int)
    (hf : parseDate sFrom = some df) (ht : parseDate sTo = some dt)
    (hle : dt ≤ df) :
    run_range sFrom (some sTo) = Except.ok []
    ∧ ∀ (events : List RawEvent) (filt : Option Int) (tz sessionTz : Tz) (M : RollupStore),
        applyDays events filt tz sessionTz [] M = M := by
  constructor
  · have h0 : (dt - df).toNat = 0 := by omega
    simp [run_range, hf, ht, daysFromTo, h0]
  · intro events filt tz sessionTz M
    rfl

/-- C10 witness: `--from 2025-01-05 --to 2025-01-04` is an empty,
error-free run. -/
theorem C10_empty_interval_witness :
    run_range "2025-01-05" (some "2025-01-04") = Except.ok []
    ∧ applyDays [] none utcTz utcTz [] emptyRollup = emptyRollup := by
  have h := C10_empty_interval "2025-01-05" "2025-01-04"
    (ymdToDays 2025 1 5) (ymdToDays 2025 1 4) (by decide) (by decide) (by decide)
  exact ⟨h.1, h.2 [] none utcTz utcTz emptyRollup⟩
